import Mathlib

/-!
Verification of the conversation controller in `src/bot.py` (event-collection
Telegram bot).  The bot is a small finite-state machine: `/start` begins a
sequence of six questions (name, date, time, region, description,
participation), the description answer is length-checked, a summary is shown,
and in the confirmation state the user can submit (appending one row to a
spreadsheet) or jump back to edit one field.

The embedding below is a direct shallow translation of the handlers:

* `message.text` is `Option String` (`none` models a message with no text
  payload, Python `None`);
* the aiogram FSM context is `Session` (`step` is the `EventForm` state,
  `none`/cleared is modelled by `Step.idle`; `data` is the `update_data`
  dictionary, one `Option PyStr` per key — `none` means the key is absent);
* side effects (messages answered, rows handed to `sheet.append_row`) are
  collected in `Effects`; the spreadsheet client is modelled by a boolean
  `sinkOk` saying whether `append_row` raises;
* a handler that raises a Python exception returns `Except.error`.
-/

namespace EventBot

/-- A Python `str`-or-`None` value (`message.text : Optional[str]`). -/
abbrev PyStr := Option String

/-- A raised Python exception, identified by a short description. -/
abbrev PyError := String

/-- The aiogram `EventForm` states plus the cleared/initial state (`IDLE`,
aiogram state `None`). -/
inductive Step where
  | idle
  | name
  | date
  | time
  | region
  | description
  | participation
  | confirm
deriving DecidableEq, Repr

/-- The FSM `update_data` dictionary: one entry per collected field.  An outer
`none` means the key is absent from the dictionary; `some v` means the key is
present with value `v` (which is itself `None` or a string). -/
structure FormData where
  name : Option PyStr := none
  date : Option PyStr := none
  time : Option PyStr := none
  region : Option PyStr := none
  description : Option PyStr := none
  participation : Option PyStr := none
deriving DecidableEq, Repr

/-- The dictionary right after `state.clear()`. -/
def emptyData : FormData := ⟨none, none, none, none, none, none⟩

/-- One user's FSM context: current state plus stored data. -/
structure Session where
  step : Step
  data : FormData
deriving DecidableEq, Repr

/-- Observable side effects of handling one message: texts passed to
`message.answer` and rows passed to `sheet.append_row` (in order). -/
structure Effects where
  answers : List String
  appended : List (List PyStr)
deriving DecidableEq, Repr

/-- Result of one handler invocation: either the new session and its effects,
or a raised Python exception. -/
abbrev Res := Except PyError (Session × Effects)

/-- `datetime.datetime.now()`, reduced to the five components used by the
`"%d.%m.%Y %H:%M"` format string. -/
structure DateTime where
  day : Nat
  month : Nat
  year : Nat
  hour : Nat
  minute : Nat
deriving DecidableEq, Repr

/-- How Python renders a value inside an f-string: a string verbatim, `None`
as `"None"`. -/
def pyShow : PyStr → String
  | none => "None"
  | some s => s

/-- `dict.get(key, "")`: the stored value when the key is present, `""`
otherwise. -/
def getD : Option PyStr → PyStr
  | none => some ""
  | some v => v

/-- `str.strip()`: drop leading and trailing whitespace. -/
def pyStrip (s : String) : String :=
  String.mk (((s.toList.dropWhile Char.isWhitespace).reverse.dropWhile
    Char.isWhitespace).reverse)

/-- `str.lower()` on one character, restricted to the alphabets the bot's
keywords use: ASCII letters and basic Cyrillic (А–Я maps to а–я, Ё to ё);
every other character is returned unchanged. -/
def pyCharLower (c : Char) : Char :=
  if 'A' ≤ c ∧ c ≤ 'Z' then Char.ofNat (c.toNat + 32)
  else if 'А' ≤ c ∧ c ≤ 'Я' then Char.ofNat (c.toNat + 32)
  else if c = 'Ё' then 'ё'
  else c

/-- `str.lower()` over a whole string. -/
def pyLower (s : String) : String :=
  String.mk (s.toList.map pyCharLower)

/-- `message.text.strip().lower()` — the normalisation performed at the top of
`handle_confirmation`. -/
def normText (s : String) : String :=
  pyLower (pyStrip s)

/-- Boolean test: `needle` is a prefix of `hay` (over character lists). -/
def subPref : List Char → List Char → Bool
  | [], _ => true
  | _ :: _, [] => false
  | a :: as, b :: bs => a == b && subPref as bs

/-- Boolean test: `needle` occurs contiguously somewhere in `hay`. -/
def subOcc (needle : List Char) : List Char → Bool
  | [] => subPref needle []
  | b :: bs => subPref needle (b :: bs) || subOcc needle bs

/-- Python's `needle in hay` substring test. -/
def containsSubstr (hay needle : String) : Bool :=
  subOcc needle.toList hay.toList

/-- The decimal digit character for `n % 10`. -/
def digitChar (n : Nat) : Char :=
  Char.ofNat (48 + n % 10)

/-- `datetime.now().strftime("%d.%m.%Y %H:%M")` for in-range components
(two-digit zero-padded day/month/hour/minute, four-digit year). -/
def formatTimestamp (dt : DateTime) : String :=
  String.mk [digitChar (dt.day / 10), digitChar dt.day, '.',
             digitChar (dt.month / 10), digitChar dt.month, '.',
             digitChar (dt.year / 1000), digitChar (dt.year / 100),
             digitChar (dt.year / 10), digitChar dt.year, ' ',
             digitChar (dt.hour / 10), digitChar dt.hour, ':',
             digitChar (dt.minute / 10), digitChar dt.minute]

/-- The shape `DD.MM.YYYY HH:MM`: sixteen characters, digits and the literal
separators in the right places. -/
def matchesStamp (s : String) : Bool :=
  match s.toList with
  | [d1, d2, p1, m1, m2, p2, y1, y2, y3, y4, sp, h1, h2, co, n1, n2] =>
    d1.isDigit && d2.isDigit && (p1 == '.') && m1.isDigit && m2.isDigit &&
    (p2 == '.') && y1.isDigit && y2.isDigit && y3.isDigit && y4.isDigit &&
    (sp == ' ') && h1.isDigit && h2.isDigit && (co == ':') &&
    n1.isDigit && n2.isDigit
  | _ => false

/-- The outgoing texts of `bot.py`, named for reuse in the theorems. -/
def welcomeMsg : String :=
  "👋 Здравствуйте! Я помогу вам добавить информацию о мероприятии.\n\n" ++
  "Пожалуйста, ответьте на несколько вопросов.\n\n" ++
  "1️⃣ Как называется мероприятие?"

def datePrompt : String :=
  "2️⃣ Укажите дату проведения (например, 15.06.2025 или 15–17.06.2025):"

def timePrompt : String :=
  "3️⃣ Во сколько начинается мероприятие? (например, 14:00 или 14:00–17:00):"

def regionPrompt : String :=
  "4️⃣ Где проходит мероприятие? (город и регион):"

def descriptionPrompt : String :=
  "5️⃣ Кратко опишите мероприятие (до 300 символов):"

def descriptionRetryMsg : String :=
  "❗ Пожалуйста, уложитесь в 300 символов. Попробуйте снова:"

def participationPrompt : String :=
  "6️⃣ Как принять участие? (ссылка, телефон, форма и т.д.):"

def submitOkMsg : String :=
  "📨 Спасибо! Мероприятие добавлено в базу."

def submitFailMsg : String :=
  "⚠️ Не удалось сохранить. Попробуйте позже."

def editUnknownMsg : String :=
  "Не понял. Пример: «изменить дата»."

def confirmHelpMsg : String :=
  "Напишите «отправить» или «изменить [поле]»."

/-- The review summary f-string of `process_participation`, applied to the
rendered field values. -/
def summaryText (n d t r ds p : String) : String :=
  "✅ Проверьте информацию:\n\n*Название:* " ++ n ++
  "\n*Дата:* " ++ d ++
  "\n*Время:* " ++ t ++
  "\n*Регион:* " ++ r ++
  "\n*Описание:* " ++ ds ++
  "\n*Как принять участие:* " ++ p ++
  "\n\nЕсли всё верно — напишите **отправить**.\n" ++
  "Чтобы изменить — напишите «изменить [поле]»."

/-- The six editable fields, as named by the values of `field_map`. -/
inductive FieldId where
  | fname
  | fdate
  | ftime
  | fregion
  | fdescription
  | fparticipation
deriving DecidableEq, Repr

/-- `getattr(EventForm, val)`: the collecting state of a field. -/
def fieldStep : FieldId → Step
  | .fname => .name
  | .fdate => .date
  | .ftime => .time
  | .fregion => .region
  | .fdescription => .description
  | .fparticipation => .participation

/-- The `prompts` dictionary of `handle_confirmation`. -/
def fieldPrompt : FieldId → String
  | .fname => "Введите новое название:"
  | .fdate => "Введите новую дату:"
  | .ftime => "Введите новое время:"
  | .fregion => "Введите новый регион:"
  | .fdescription => "Новое описание (до 300 символов):"
  | .fparticipation => "Как принять участие:"

/-- `field_map` in its Python insertion (= iteration) order. -/
def fieldMap : List (String × FieldId) :=
  [("название", .fname), ("дата", .fdate), ("время", .ftime),
   ("регион", .fregion), ("описание", .fdescription),
   ("участие", .fparticipation)]

/-- The `for key, val in field_map.items()` loop: first keyword that is a
substring of `t` wins. -/
def scanFields (t : String) : Option FieldId :=
  (fieldMap.find? (fun kv => containsSubstr t kv.1)).map (fun kv => kv.2)

/-- The `row` list built in `handle_confirmation` before `append_row`. -/
def rowOf (d : FormData) (dt : DateTime) : List PyStr :=
  [getD d.name, getD d.date, getD d.time, getD d.region,
   getD d.description, getD d.participation, some (formatTimestamp dt)]

/-- `cmd_start`: `state.clear()`, welcome prompt, `set_state(EventForm.name)`. -/
def cmd_start (_s : Session) : Session × Effects :=
  (⟨Step.name, emptyData⟩, ⟨[welcomeMsg], []⟩)

/-- `process_name`: store the text under `name`, prompt for the date, advance. -/
def process_name (s : Session) (text : PyStr) : Session × Effects :=
  (⟨Step.date, { s.data with name := some text }⟩, ⟨[datePrompt], []⟩)

/-- `process_date`: store the text under `date`, prompt for the time, advance. -/
def process_date (s : Session) (text : PyStr) : Session × Effects :=
  (⟨Step.time, { s.data with date := some text }⟩, ⟨[timePrompt], []⟩)

/-- `process_time`: store the text under `time`, prompt for the region, advance. -/
def process_time (s : Session) (text : PyStr) : Session × Effects :=
  (⟨Step.region, { s.data with time := some text }⟩, ⟨[regionPrompt], []⟩)

/-- `process_region`: store the text under `region`, prompt for the
description, advance. -/
def process_region (s : Session) (text : PyStr) : Session × Effects :=
  (⟨Step.description, { s.data with region := some text }⟩,
   ⟨[descriptionPrompt], []⟩)

/-- `process_description`: `len(message.text)` raises on a missing text
payload; a text longer than 300 characters re-prompts in place; otherwise the
text is stored and the session advances. -/
def process_description (s : Session) (text : PyStr) : Res :=
  match text with
  | none => .error "TypeError: object of type NoneType has no len()"
  | some t =>
    if t.length > 300 then
      .ok (s, ⟨[descriptionRetryMsg], []⟩)
    else
      .ok (⟨Step.participation, { s.data with description := some (some t) }⟩,
           ⟨[participationPrompt], []⟩)

/-- `process_participation`: store the text, read the whole dictionary
(`data[...]` raises `KeyError` on an absent key), render the summary, move to
the confirmation state. -/
def process_participation (s : Session) (text : PyStr) : Res :=
  let d : FormData := { s.data with participation := some text }
  match d.name, d.date, d.time, d.region, d.description, d.participation with
  | some n, some dte, some tme, some reg, some dsc, some prt =>
    .ok (⟨Step.confirm, d⟩,
         ⟨[summaryText (pyShow n) (pyShow dte) (pyShow tme) (pyShow reg)
             (pyShow dsc) (pyShow prt)], []⟩)
  | _, _, _, _, _, _ => .error "KeyError"

/-- `handle_confirmation`: `.strip().lower()` raises on a missing text
payload; a text containing «отправить» builds the row, attempts exactly one
`append_row` (acknowledging success or failure depending on the sink), then
clears the session; otherwise a text containing «изменить» is scanned against
`field_map`; otherwise a help message is sent and the state is kept. -/
def handle_confirmation (dt : DateTime) (sinkOk : Bool) (s : Session)
    (text : PyStr) : Res :=
  match text with
  | none => .error "AttributeError: NoneType object has no attribute strip"
  | some raw =>
    let t := normText raw
    if containsSubstr t "отправить" then
      if sinkOk then
        .ok (⟨Step.idle, emptyData⟩, ⟨[submitOkMsg], [rowOf s.data dt]⟩)
      else
        .ok (⟨Step.idle, emptyData⟩, ⟨[submitFailMsg], [rowOf s.data dt]⟩)
    else if containsSubstr t "изменить" then
      match scanFields t with
      | some f => .ok (⟨fieldStep f, s.data⟩, ⟨[fieldPrompt f], []⟩)
      | none => .ok (s, ⟨[editUnknownMsg], []⟩)
    else
      .ok (s, ⟨[confirmHelpMsg], []⟩)

/-- The router's per-state dispatch of a non-command message.  In the cleared
state no handler's filter matches, so nothing happens. -/
def routeMessage (dt : DateTime) (sinkOk : Bool) (s : Session)
    (text : PyStr) : Res :=
  match s.step with
  | .idle => .ok (s, ⟨[], []⟩)
  | .name => .ok (process_name s text)
  | .date => .ok (process_date s text)
  | .time => .ok (process_time s text)
  | .region => .ok (process_region s text)
  | .description => process_description s text
  | .participation => process_participation s text
  | .confirm => handle_confirmation dt sinkOk s text

/-- The first whitespace-delimited token of a message text. -/
def firstWord (s : String) : String :=
  String.mk (s.toList.takeWhile (fun c => !c.isWhitespace))

/-- The aiogram `Command("start")` filter: the message text's first token is
`/start`, optionally with a `@botname` suffix. -/
def isStartCommand : PyStr → Bool
  | none => false
  | some t =>
    firstWord t == "/start" || subPref "/start@".toList (firstWord t).toList

/-- Whole-update dispatch: the `Command("start")` handler is registered first,
so a start command wins over every state handler. -/
def handleUpdate (dt : DateTime) (sinkOk : Bool) (s : Session)
    (text : PyStr) : Res :=
  if isStartCommand text then .ok (cmd_start s) else routeMessage dt sinkOk s text

/-- Whether a handler invocation completed without raising. -/
def resOk : Res → Bool
  | .ok _ => true
  | .error _ => false

/-- The eight reachable values of `current_step`. -/
def allSteps : List Step :=
  [Step.idle, Step.name, Step.date, Step.time, Step.region,
   Step.description, Step.participation, Step.confirm]

/-- The fixed question order of §4.1, with `IDLE` as the virtual
initial/terminal state (submission returns the session to `IDLE`). -/
def seqNext : Step → Step
  | .idle => .name
  | .name => .date
  | .date => .time
  | .time => .region
  | .region => .description
  | .description => .participation
  | .participation => .confirm
  | .confirm => .idle

/-- Whether a state is one of the six collecting states. -/
def isCollecting : Step → Bool
  | .name | .date | .time | .region | .description | .participation => true
  | .idle | .confirm => false

/-! ### Helper lemmas -/

lemma subPref_self_append (b c : List Char) : subPref b (b ++ c) = true := by
  induction b with
  | nil => rfl
  | cons a as ih => simp [subPref, ih]

lemma subOcc_of_subPref {b l : List Char} (h : subPref b l = true) :
    subOcc b l = true := by
  cases l with
  | nil => simpa [subOcc] using h
  | cons x xs => simp [subOcc, h]

lemma subOcc_append_left (a : List Char) {b l : List Char}
    (h : subOcc b l = true) : subOcc b (a ++ l) = true := by
  induction a with
  | nil => simpa using h
  | cons x xs ih => simp [subOcc, ih]

lemma toList_append (a b : String) : (a ++ b).toList = a.toList ++ b.toList := by
  cases a; cases b; rfl

lemma digitChar_isDigit (n : Nat) : (digitChar n).isDigit = true := by
  have h10 : ∀ m, m < 10 → (Char.ofNat (48 + m)).isDigit = true := by decide
  exact h10 (n % 10) (Nat.mod_lt n (by decide))

lemma stamp_shape (dt : DateTime) : matchesStamp (formatTimestamp dt) = true := by
  simp [matchesStamp, formatTimestamp, String.toList, digitChar_isDigit]

lemma step_mem (st : Step) : st ∈ allSteps := by
  cases st <;> simp [allSteps]

lemma find_first {α : Type} (p : α → Bool) :
    ∀ (l : List α) (i : Nat) (x : α), l[i]? = some x → p x = true →
      (∀ y ∈ l.take i, p y = false) → l.find? p = some x := by
  intro l
  induction l with
  | nil => intro i x hx; simp at hx
  | cons a t ih =>
    intro i x hx hp htake
    cases i with
    | zero =>
      simp at hx
      subst hx
      simp [List.find?, hp]
    | succ n =>
      have ha : p a = false := htake a (by simp)
      rw [List.find?]
      rw [ha]
      exact ih n x (by simpa using hx) hp
        (fun y hy => htake y (by simp [List.take_succ_cons]; exact Or.inr hy))

lemma route_confirm (dt : DateTime) (sinkOk : Bool) (st : Step) (d : FormData)
    (text : PyStr) (hstep : st = Step.confirm) :
    routeMessage dt sinkOk ⟨st, d⟩ text = handle_confirmation dt sinkOk ⟨st, d⟩ text := by
  subst hstep; rfl

lemma confirm_submit_eq (dt : DateTime) (sinkOk : Bool) (s : Session)
    (raw : String) (hstep : s.step = Step.confirm)
    (hsub : containsSubstr (normText raw) "отправить" = true) :
    routeMessage dt sinkOk s (some raw) =
      .ok (⟨Step.idle, emptyData⟩,
           ⟨[if sinkOk then submitOkMsg else submitFailMsg], [rowOf s.data dt]⟩) := by
  obtain ⟨st, d⟩ := s
  rw [route_confirm dt sinkOk st d (some raw) hstep]
  cases sinkOk <;> simp [handle_confirmation, hsub]

lemma confirm_edit_eq (dt : DateTime) (sinkOk : Bool) (s : Session)
    (raw : String) (f : FieldId) (hstep : s.step = Step.confirm)
    (hsub : containsSubstr (normText raw) "отправить" = false)
    (hedit : containsSubstr (normText raw) "изменить" = true)
    (hscan : scanFields (normText raw) = some f) :
    routeMessage dt sinkOk s (some raw) =
      .ok (⟨fieldStep f, s.data⟩, ⟨[fieldPrompt f], []⟩) := by
  obtain ⟨st, d⟩ := s
  rw [route_confirm dt sinkOk st d (some raw) hstep]
  simp [handle_confirmation, hsub, hedit, hscan]

lemma confirm_other_eq (dt : DateTime) (sinkOk : Bool) (s : Session)
    (raw : String) (hstep : s.step = Step.confirm)
    (hsub : containsSubstr (normText raw) "отправить" = false)
    (hno : containsSubstr (normText raw) "изменить" = false ∨
           scanFields (normText raw) = none) :
    routeMessage dt sinkOk s (some raw) =
      .ok (s, ⟨[if containsSubstr (normText raw) "изменить" then editUnknownMsg
                else confirmHelpMsg], []⟩) := by
  obtain ⟨st, d⟩ := s
  rw [route_confirm dt sinkOk st d (some raw) hstep]
  by_cases hedit : containsSubstr (normText raw) "изменить" = true
  · have hscan : scanFields (normText raw) = none := by
      rcases hno with hno | hno
      · rw [hedit] at hno; cases hno
      · exact hno
    simp [handle_confirmation, hsub, hedit, hscan]
  · simp only [Bool.not_eq_true] at hedit
    simp [handle_confirmation, hsub, hedit]

/-! ### Concrete data used by the witnesses -/

/-- A fixed submission instant, `07.03.2030 09:05`. -/
def dt0 : DateTime := ⟨7, 3, 2030, 9, 5⟩

/-- A fully populated dictionary. -/
def sampleData : FormData :=
  ⟨some (some "EventX"), some (some "01.01.2030"), some (some "10:00"),
   some (some "CityY"), some (some "Desc"), some (some "link")⟩

/-- A session sitting at the confirmation question with all six answers. -/
def sampleConfirm : Session := ⟨Step.confirm, sampleData⟩

/-- A freshly reached confirmation state with an empty dictionary. -/
def s0 : Session := ⟨Step.confirm, emptyData⟩

/-- A session awaiting the description answer. -/
def sampleDesc : Session :=
  ⟨Step.description, ⟨some (some "E"), some (some "D"), some (some "T"),
    some (some "R"), none, none⟩⟩

/-- A session awaiting the participation answer. -/
def samplePart : Session :=
  ⟨Step.participation, ⟨some (some "EventX"), some (some "01.01.2030"),
    some (some "10:00"), some (some "CityY"), some (some "Desc"), none⟩⟩

/-! ### Claims -/

/-- C1: in the `CONFIRM` state with all six fields populated, an input whose
normalised (stripped, lowercased) text contains «отправить» with a working
sink causes exactly one `append_row` call carrying the ordered 7-tuple of the
six stored fields plus the submission timestamp (which renders as
`DD.MM.YYYY HH:MM`), a success acknowledgment, and resets the session to
`IDLE` with all fields cleared. -/
theorem c1_submit_success (dt : DateTime) (s : Session) (raw : String)
    (vn vd vtm vr vds vp : String)
    (hstep : s.step = Step.confirm)
    (hn : s.data.name = some (some vn)) (hd : s.data.date = some (some vd))
    (htm : s.data.time = some (some vtm)) (hr : s.data.region = some (some vr))
    (hds : s.data.description = some (some vds))
    (hp : s.data.participation = some (some vp))
    (hsub : containsSubstr (normText raw) "отправить" = true) :
    routeMessage dt true s (some raw) =
      .ok (⟨Step.idle, emptyData⟩,
           ⟨[submitOkMsg],
            [[some vn, some vd, some vtm, some vr, some vds, some vp,
              some (formatTimestamp dt)]]⟩) ∧
    matchesStamp (formatTimestamp dt) = true := by
  refine ⟨?_, stamp_shape dt⟩
  rw [confirm_submit_eq dt true s raw hstep hsub]
  simp [rowOf, getD, hn, hd, htm, hr, hds, hp]

/-- C1 witness: a concrete submission from a fully populated session. -/
theorem c1_witness :
    routeMessage dt0 true sampleConfirm (some "Отправить") =
      .ok (⟨Step.idle, emptyData⟩,
           ⟨[submitOkMsg],
            [[some "EventX", some "01.01.2030", some "10:00", some "CityY",
              some "Desc", some "link", some (formatTimestamp dt0)]]⟩) ∧
    matchesStamp (formatTimestamp dt0) = true :=
  c1_submit_success dt0 sampleConfirm "Отправить" "EventX" "01.01.2030"
    "10:00" "CityY" "Desc" "link" rfl rfl rfl rfl rfl rfl rfl (by decide)

/-- C2: in the `CONFIRM` state, a submission with a failing sink makes exactly
one `append_row` attempt (no retry), answers the failure acknowledgment, and
still clears the session to `IDLE` — the same terminal session state as on
success, only the message differing. -/
theorem c2_submit_failure (dt : DateTime) (s : Session) (raw : String)
    (hstep : s.step = Step.confirm)
    (hsub : containsSubstr (normText raw) "отправить" = true) :
    routeMessage dt false s (some raw) =
      .ok (⟨Step.idle, emptyData⟩, ⟨[submitFailMsg], [rowOf s.data dt]⟩) := by
  rw [confirm_submit_eq dt false s raw hstep hsub]
  rfl

/-- C2 witness: a concrete failing submission. -/
theorem c2_witness :
    routeMessage dt0 false sampleConfirm (some " отправить ") =
      .ok (⟨Step.idle, emptyData⟩,
           ⟨[submitFailMsg], [rowOf sampleConfirm.data dt0]⟩) :=
  c2_submit_failure dt0 sampleConfirm " отправить " rfl (by decide)

/-- C3: in the `DESCRIPTION` state an input longer than 300 characters
re-prompts and leaves the whole session (state and every field) unchanged;
an input of at most 300 characters is stored verbatim under `description`
and the session advances to `PARTICIPATION`. -/
theorem c3_description_validation (dt : DateTime) (snk : Bool) (s : Session)
    (t : String) (hstep : s.step = Step.description) :
    (t.length > 300 →
      routeMessage dt snk s (some t) = .ok (s, ⟨[descriptionRetryMsg], []⟩)) ∧
    (t.length ≤ 300 →
      routeMessage dt snk s (some t) =
        .ok (⟨Step.participation,
              { s.data with description := some (some t) }⟩,
             ⟨[participationPrompt], []⟩)) := by
  obtain ⟨st, d⟩ := s
  have hst : st = Step.description := hstep
  subst hst
  constructor
  · intro hlen
    simp [routeMessage, process_description, hlen]
  · intro hlen
    have hlen' : ¬ (t.length > 300) := by omega
    simp [routeMessage, process_description, hlen']

/-- C3 witness: a short description is stored and the session advances. -/
theorem c3_witness :
    routeMessage dt0 true sampleDesc (some "ok") =
      .ok (⟨Step.participation,
            { sampleDesc.data with description := some (some "ok") }⟩,
           ⟨[participationPrompt], []⟩) :=
  (c3_description_validation dt0 true sampleDesc "ok" rfl).2 (by decide)

/-- C4: in the `PARTICIPATION` state any input text is stored under
`participation`, the emitted summary contains all six stored values verbatim,
and the session moves to `CONFIRM`. -/
theorem c4_participation_summary (dt : DateTime) (snk : Bool) (s : Session)
    (t : String) (vn vd vtm vr vds : String)
    (hstep : s.step = Step.participation)
    (hn : s.data.name = some (some vn)) (hd : s.data.date = some (some vd))
    (htm : s.data.time = some (some vtm)) (hr : s.data.region = some (some vr))
    (hds : s.data.description = some (some vds)) :
    routeMessage dt snk s (some t) =
      .ok (⟨Step.confirm, { s.data with participation := some (some t) }⟩,
           ⟨[summaryText vn vd vtm vr vds t], []⟩) ∧
    containsSubstr (summaryText vn vd vtm vr vds t) vn = true ∧
    containsSubstr (summaryText vn vd vtm vr vds t) vd = true ∧
    containsSubstr (summaryText vn vd vtm vr vds t) vtm = true ∧
    containsSubstr (summaryText vn vd vtm vr vds t) vr = true ∧
    containsSubstr (summaryText vn vd vtm vr vds t) vds = true ∧
    containsSubstr (summaryText vn vd vtm vr vds t) t = true := by
  obtain ⟨st, d⟩ := s
  have hst : st = Step.participation := hstep
  subst hst
  obtain ⟨dn, dd2, dtm2, dr2, dds2, dp2⟩ := d
  have hn' : dn = some (some vn) := hn
  have hd' : dd2 = some (some vd) := hd
  have htm' : dtm2 = some (some vtm) := htm
  have hr' : dr2 = some (some vr) := hr
  have hds' : dds2 = some (some vds) := hds
  subst hn' hd' htm' hr' hds'
  refine ⟨by simp [routeMessage, process_participation, pyShow],
    ?_, ?_, ?_, ?_, ?_, ?_⟩
  · simp only [containsSubstr, summaryText, toList_append, List.append_assoc]
    exact subOcc_append_left _ (subOcc_of_subPref (subPref_self_append _ _))
  · simp only [containsSubstr, summaryText, toList_append, List.append_assoc]
    exact subOcc_append_left _ (subOcc_append_left _ (subOcc_append_left _
      (subOcc_of_subPref (subPref_self_append _ _))))
  · simp only [containsSubstr, summaryText, toList_append, List.append_assoc]
    exact subOcc_append_left _ (subOcc_append_left _ (subOcc_append_left _
      (subOcc_append_left _ (subOcc_append_left _
      (subOcc_of_subPref (subPref_self_append _ _))))))
  · simp only [containsSubstr, summaryText, toList_append, List.append_assoc]
    exact subOcc_append_left _ (subOcc_append_left _ (subOcc_append_left _
      (subOcc_append_left _ (subOcc_append_left _ (subOcc_append_left _
      (subOcc_append_left _ (subOcc_of_subPref (subPref_self_append _ _))))))))
  · simp only [containsSubstr, summaryText, toList_append, List.append_assoc]
    exact subOcc_append_left _ (subOcc_append_left _ (subOcc_append_left _
      (subOcc_append_left _ (subOcc_append_left _ (subOcc_append_left _
      (subOcc_append_left _ (subOcc_append_left _ (subOcc_append_left _
      (subOcc_of_subPref (subPref_self_append _ _))))))))))
  · simp only [containsSubstr, summaryText, toList_append, List.append_assoc]
    exact subOcc_append_left _ (subOcc_append_left _ (subOcc_append_left _
      (subOcc_append_left _ (subOcc_append_left _ (subOcc_append_left _
      (subOcc_append_left _ (subOcc_append_left _ (subOcc_append_left _
      (subOcc_append_left _ (subOcc_append_left _
      (subOcc_of_subPref (subPref_self_append _ _))))))))))))

/-- C4 witness: a concrete participation answer and its summary. -/
theorem c4_witness :
    routeMessage dt0 true samplePart (some "link") =
      .ok (⟨Step.confirm,
            { samplePart.data with participation := some (some "link") }⟩,
           ⟨[summaryText "EventX" "01.01.2030" "10:00" "CityY" "Desc" "link"],
            []⟩) ∧
    containsSubstr (summaryText "EventX" "01.01.2030" "10:00" "CityY" "Desc"
      "link") "EventX" = true ∧
    containsSubstr (summaryText "EventX" "01.01.2030" "10:00" "CityY" "Desc"
      "link") "01.01.2030" = true ∧
    containsSubstr (summaryText "EventX" "01.01.2030" "10:00" "CityY" "Desc"
      "link") "10:00" = true ∧
    containsSubstr (summaryText "EventX" "01.01.2030" "10:00" "CityY" "Desc"
      "link") "CityY" = true ∧
    containsSubstr (summaryText "EventX" "01.01.2030" "10:00" "CityY" "Desc"
      "link") "Desc" = true ∧
    containsSubstr (summaryText "EventX" "01.01.2030" "10:00" "CityY" "Desc"
      "link") "link" = true :=
  c4_participation_summary dt0 true samplePart "link" "EventX" "01.01.2030"
    "10:00" "CityY" "Desc" rfl rfl rfl rfl rfl rfl

/-- C5: in the `CONFIRM` state, an input containing the edit token whose
keyword scan resolves to a field jumps to that field's collecting state and
emits that field's entry prompt while every stored value, including the one
being edited, stays unchanged. -/
theorem c5_edit_jump (dt : DateTime) (snk : Bool) (s : Session) (raw : String)
    (f : FieldId) (hstep : s.step = Step.confirm)
    (hsub : containsSubstr (normText raw) "отправить" = false)
    (hedit : containsSubstr (normText raw) "изменить" = true)
    (hscan : scanFields (normText raw) = some f) :
    routeMessage dt snk s (some raw) =
      .ok (⟨fieldStep f, s.data⟩, ⟨[fieldPrompt f], []⟩) :=
  confirm_edit_eq dt snk s raw f hstep hsub hedit hscan

/-- C5 witness: «изменить регион» jumps back to the region question with the
stored data intact. -/
theorem c5_witness :
    routeMessage dt0 true sampleConfirm (some "изменить регион") =
      .ok (⟨fieldStep FieldId.fregion, sampleConfirm.data⟩,
           ⟨[fieldPrompt FieldId.fregion], []⟩) :=
  c5_edit_jump dt0 true sampleConfirm "изменить регион" FieldId.fregion rfl
    (by decide) (by decide) (by decide)

/-- C6: `current_step` only ever takes the eight declared values, and every
step of the message handler either advances along the fixed question order
(with `IDLE` as the virtual terminal state reached after submission), stays
in place (only possible in `IDLE`, in `DESCRIPTION` on the length failure and
in `CONFIRM` on unrecognised input), or is an edit-jump from `CONFIRM` into a
collecting state. -/
theorem c6_transition_order (dt : DateTime) (snk : Bool) (s s' : Session)
    (eff : Effects) (text : PyStr)
    (h : routeMessage dt snk s text = .ok (s', eff)) :
    s'.step ∈ allSteps ∧
    (s'.step = seqNext s.step ∨
     (s'.step = s.step ∧
      (s.step = Step.idle ∨ s.step = Step.description ∨ s.step = Step.confirm)) ∨
     (s.step = Step.confirm ∧ isCollecting s'.step = true)) := by
  refine ⟨step_mem s'.step, ?_⟩
  obtain ⟨st, d⟩ := s
  cases st
  case idle =>
    simp [routeMessage] at h
    obtain ⟨h1, h2⟩ := h
    subst h1
    right; left
    exact ⟨rfl, Or.inl rfl⟩
  case name =>
    simp [routeMessage, process_name] at h
    obtain ⟨h1, h2⟩ := h
    subst h1
    left; rfl
  case date =>
    simp [routeMessage, process_date] at h
    obtain ⟨h1, h2⟩ := h
    subst h1
    left; rfl
  case time =>
    simp [routeMessage, process_time] at h
    obtain ⟨h1, h2⟩ := h
    subst h1
    left; rfl
  case region =>
    simp [routeMessage, process_region] at h
    obtain ⟨h1, h2⟩ := h
    subst h1
    left; rfl
  case description =>
    cases text with
    | none => simp [routeMessage, process_description] at h
    | some t =>
      by_cases hlen : t.length > 300
      · simp [routeMessage, process_description, hlen] at h
        obtain ⟨h1, h2⟩ := h
        subst h1
        right; left
        exact ⟨rfl, Or.inr (Or.inl rfl)⟩
      · simp [routeMessage, process_description, hlen] at h
        obtain ⟨h1, h2⟩ := h
        subst h1
        left; rfl
  case participation =>
    obtain ⟨dn, dd2, dtm2, dr2, dds2, dp2⟩ := d
    cases dn <;> cases dd2 <;> cases dtm2 <;> cases dr2 <;> cases dds2 <;>
      simp [routeMessage, process_participation] at h
    obtain ⟨h1, h2⟩ := h
    subst h1
    left; rfl
  case confirm =>
    cases text with
    | none => simp [routeMessage, handle_confirmation] at h
    | some raw =>
      by_cases hsub : containsSubstr (normText raw) "отправить" = true
      · cases snk <;> simp [routeMessage, handle_confirmation, hsub] at h <;>
          obtain ⟨h1, h2⟩ := h <;> subst h1 <;> exact Or.inl rfl
      · have hsub' : containsSubstr (normText raw) "отправить" = false := by
          simpa using hsub
        by_cases hedit : containsSubstr (normText raw) "изменить" = true
        · cases hscan : scanFields (normText raw) with
          | none =>
            simp [routeMessage, handle_confirmation, hsub', hedit, hscan] at h
            obtain ⟨h1, h2⟩ := h
            subst h1
            right; left
            exact ⟨rfl, Or.inr (Or.inr rfl)⟩
          | some f =>
            simp [routeMessage, handle_confirmation, hsub', hedit, hscan] at h
            obtain ⟨h1, h2⟩ := h
            subst h1
            right; right
            refine ⟨rfl, ?_⟩
            cases f <;> rfl
        · have hedit' : containsSubstr (normText raw) "изменить" = false := by
            simpa using hedit
          simp [routeMessage, handle_confirmation, hsub', hedit'] at h
          obtain ⟨h1, h2⟩ := h
          subst h1
          right; left
          exact ⟨rfl, Or.inr (Or.inr rfl)⟩

/-- C6 witness: the name answer moves the session from `NAME` to `DATE`. -/
theorem c6_witness :
    (Session.mk Step.date
      ⟨some (some "x"), none, none, none, none, none⟩).step ∈ allSteps ∧
    ((Session.mk Step.date
        ⟨some (some "x"), none, none, none, none, none⟩).step =
      seqNext (Session.mk Step.name emptyData).step ∨
     ((Session.mk Step.date
         ⟨some (some "x"), none, none, none, none, none⟩).step =
       (Session.mk Step.name emptyData).step ∧
      ((Session.mk Step.name emptyData).step = Step.idle ∨
       (Session.mk Step.name emptyData).step = Step.description ∨
       (Session.mk Step.name emptyData).step = Step.confirm)) ∨
     ((Session.mk Step.name emptyData).step = Step.confirm ∧
      isCollecting (Session.mk Step.date
        ⟨some (some "x"), none, none, none, none, none⟩).step = true)) :=
  c6_transition_order dt0 true ⟨Step.name, emptyData⟩
    ⟨Step.date, ⟨some (some "x"), none, none, none, none, none⟩⟩
    ⟨[datePrompt], []⟩ (some "x") rfl

/-- C7: in the `CONFIRM` state, an input containing neither «отправить» nor a
recognised edit command (in particular «изменить» without any field keyword)
leaves the session untouched, appends nothing, answers one help/repeat
message, and raises nothing. -/
theorem c7_confirm_fallthrough (dt : DateTime) (snk : Bool) (s : Session)
    (raw : String) (hstep : s.step = Step.confirm)
    (hsub : containsSubstr (normText raw) "отправить" = false)
    (hno : containsSubstr (normText raw) "изменить" = false ∨
           scanFields (normText raw) = none) :
    routeMessage dt snk s (some raw) =
      .ok (s, ⟨[if containsSubstr (normText raw) "изменить" then editUnknownMsg
                else confirmHelpMsg], []⟩) :=
  confirm_other_eq dt snk s raw hstep hsub hno

/-- C7 witness: an unrecognised confirmation input repeats the instructions. -/
theorem c7_witness :
    routeMessage dt0 true s0 (some "привет") =
      .ok (s0, ⟨[if containsSubstr (normText "привет") "изменить" then
                   editUnknownMsg else confirmHelpMsg], []⟩) :=
  c7_confirm_fallthrough dt0 true s0 "привет" rfl (by decide)
    (Or.inl (by decide))

/-- C8: the `/start` command, from any prior state and any stored data,
clears all fields, emits the welcome prompt asking for the event name, and
sets the state to `NAME`. -/
theorem c8_start_resets (dt : DateTime) (snk : Bool) (s : Session) (t : PyStr)
    (h : isStartCommand t = true) :
    handleUpdate dt snk s t =
      .ok (⟨Step.name, emptyData⟩, ⟨[welcomeMsg], []⟩) := by
  simp [handleUpdate, h, cmd_start]

/-- C8 witness: `/start` restarts a session that sat at confirmation with a
full dictionary. -/
theorem c8_witness :
    handleUpdate dt0 true sampleConfirm (some "/start") =
      .ok (⟨Step.name, emptyData⟩, ⟨[welcomeMsg], []⟩) :=
  c8_start_resets dt0 true sampleConfirm (some "/start") (by decide)

/-- C9 (amended): for every session whose dictionary covers the completed
steps (needed only in `PARTICIPATION`) and every message that carries a text
payload, the handler never raises: collecting states accept the text as free
input and `CONFIRM` degrades to a repeat prompt. -/
theorem c9_text_never_raises (dt : DateTime) (snk : Bool) (s : Session)
    (t : String)
    (hready : s.step = Step.participation →
      s.data.name.isSome ∧ s.data.date.isSome ∧ s.data.time.isSome ∧
      s.data.region.isSome ∧ s.data.description.isSome) :
    resOk (routeMessage dt snk s (some t)) = true := by
  obtain ⟨st, d⟩ := s
  cases st
  case idle => rfl
  case name => rfl
  case date => rfl
  case time => rfl
  case region => rfl
  case description =>
    by_cases hlen : t.length > 300
    · simp [routeMessage, process_description, hlen, resOk]
    · simp [routeMessage, process_description, hlen, resOk]
  case participation =>
    obtain ⟨dn, dd2, dtm2, dr2, dds2, dp2⟩ := d
    obtain ⟨h1, h2, h3, h4, h5⟩ := hready rfl
    rcases dn with _ | a
    · simp at h1
    rcases dd2 with _ | b
    · simp at h2
    rcases dtm2 with _ | c2
    · simp at h3
    rcases dr2 with _ | e2
    · simp at h4
    rcases dds2 with _ | f2
    · simp at h5
    rfl
  case confirm =>
    by_cases hsub : containsSubstr (normText t) "отправить" = true
    · cases snk <;> simp [routeMessage, handle_confirmation, hsub, resOk]
    · have hsub' : containsSubstr (normText t) "отправить" = false := by
        simpa using hsub
      by_cases hedit : containsSubstr (normText t) "изменить" = true
      · cases hscan : scanFields (normText t) with
        | none =>
          simp [routeMessage, handle_confirmation, hsub', hedit, hscan, resOk]
        | some f =>
          simp [routeMessage, handle_confirmation, hsub', hedit, hscan, resOk]
      · have hedit' : containsSubstr (normText t) "изменить" = false := by
          simpa using hedit
        simp [routeMessage, handle_confirmation, hsub', hedit', resOk]

/-- C9 witness: an arbitrary text in the `NAME` state is handled without an
exception. -/
theorem c9_witness :
    resOk (routeMessage dt0 true ⟨Step.name, emptyData⟩ (some "hi")) = true :=
  c9_text_never_raises dt0 true ⟨Step.name, emptyData⟩ "hi" (by decide)

/-- C9 counterexample: a message with no text payload (`message.text is
None`) in the `CONFIRM` state makes the handler raise (`AttributeError` on
`.strip()`), refuting the claim that no inbound input ever raises. -/
theorem c9_none_input_raises :
    resOk (routeMessage dt0 true ⟨Step.confirm, emptyData⟩ none) = false := rfl

/-- C10: in the `CONFIRM` state the dispatch order is fixed: a normalised
text containing «отправить» always submits (even if «изменить» or field
keywords also occur), and an edit text is resolved to the first matching
keyword in the `field_map` order название, дата, время, регион, описание,
участие. -/
theorem c10_confirm_dispatch_order (dt : DateTime) (snk : Bool) (s : Session)
    (hstep : s.step = Step.confirm) :
    (∀ raw : String, containsSubstr (normText raw) "отправить" = true →
      routeMessage dt snk s (some raw) =
        .ok (⟨Step.idle, emptyData⟩,
             ⟨[if snk then submitOkMsg else submitFailMsg],
              [rowOf s.data dt]⟩)) ∧
    (∀ (raw : String) (i : Nat) (k : String) (f : FieldId),
      fieldMap[i]? = some (k, f) →
      containsSubstr (normText raw) "отправить" = false →
      containsSubstr (normText raw) "изменить" = true →
      containsSubstr (normText raw) k = true →
      (∀ kv ∈ fieldMap.take i, containsSubstr (normText raw) kv.1 = false) →
      routeMessage dt snk s (some raw) =
        .ok (⟨fieldStep f, s.data⟩, ⟨[fieldPrompt f], []⟩)) := by
  constructor
  · intro raw hsub
    exact confirm_submit_eq dt snk s raw hstep hsub
  · intro raw i k f hi hsub hedit hk htake
    have hscan : scanFields (normText raw) = some f := by
      unfold scanFields
      rw [find_first (fun kv => containsSubstr (normText raw) kv.1) fieldMap
        i (k, f) hi hk htake]
      rfl
    exact confirm_edit_eq dt snk s raw f hstep hsub hedit hscan

/-- C10 witness: «изменить дата регион» matches both «дата» and «регион»; the
earlier table entry («дата») wins. -/
theorem c10_witness :
    routeMessage dt0 true s0 (some "изменить дата регион") =
      .ok (⟨fieldStep FieldId.fdate, s0.data⟩,
           ⟨[fieldPrompt FieldId.fdate], []⟩) :=
  (c10_confirm_dispatch_order dt0 true s0 rfl).2 "изменить дата регион" 1
    "дата" FieldId.fdate rfl (by decide) (by decide) (by decide) (by decide)

end EventBot
